import Mathlib

/-!
Verification of danjacques/pixelproxy against its specification.

This file shallowly embeds the parts of the repository that the claims
concern:

* the storage display-name sanitisation and file-ID derivation
  (applications/pixelproxy/storage, file.go);
* the atomic default-file write (util/atomicfile.go and storage.go);
* the Controller state machine (applications/pixelproxy/controller.go),
  together with the lease multiset of the proxy manager and the lease
  discipline of the replay player (those two live in the gopushpixels
  dependency and are modelled from the specification);
* the proxy-device pairing performed by the proxy manager (also in the
  gopushpixels dependency, modelled from the specification, with the MAC
  OUI bytes and group offset configured in app.go).

Go machine integers appear only as rune code points (Nat) and int32
group/controller ordinals (Int; the modelled code paths perform no
arithmetic near the wrap point, so Int addition is used as the spec
states it).
-/

namespace PixelProxy

/-! ## Display names and file IDs (storage/file.go) -/

/-- Go unicode.IsSpace: membership in the Unicode White_Space table
(ranges 0009-000D, 0020, 0085, 00A0, 1680, 2000-200A, 2028, 2029,
202F, 205F, 3000). -/
def goIsSpace (r : Char) : Bool :=
  decide (0x9 ≤ r.toNat ∧ r.toNat ≤ 0xD) || decide (r.toNat = 0x20) ||
  decide (r.toNat = 0x85) || decide (r.toNat = 0xA0) ||
  decide (r.toNat = 0x1680) ||
  decide (0x2000 ≤ r.toNat ∧ r.toNat ≤ 0x200A) ||
  decide (r.toNat = 0x2028) || decide (r.toNat = 0x2029) ||
  decide (r.toNat = 0x202F) || decide (r.toNat = 0x205F) ||
  decide (r.toNat = 0x3000)

/-- Go strings.TrimSpace: remove leading and trailing runes satisfying
unicode.IsSpace. -/
def goTrimSpace (s : String) : String :=
  String.mk (((s.data.dropWhile goIsSpace).reverse.dropWhile goIsSpace).reverse)

/-- sanitizeDisplayName (storage/file.go): strings.TrimSpace. -/
def sanitizeDisplayName (v : String) : String := goTrimSpace v

/-- Go unicode.IsLetter restricted to the ASCII range (the only range on
which fileIDFromDisplayName consults it, thanks to its MaxASCII guard):
the letters A-Z (65-90) and a-z (97-122). -/
def goIsLetterASCII (r : Char) : Bool :=
  (decide (65 ≤ r.toNat) && decide (r.toNat ≤ 90)) ||
  (decide (97 ≤ r.toNat) && decide (r.toNat ≤ 122))

/-- Go unicode.IsNumber restricted to the ASCII range: the digits
0-9 (48-57). -/
def goIsNumberASCII (r : Char) : Bool :=
  decide (48 ≤ r.toNat) && decide (r.toNat ≤ 57)

/-- The isValid predicate of fileIDFromDisplayName (storage/file.go):
false for runes above unicode.MaxASCII, otherwise
unicode.IsLetter(r) || unicode.IsNumber(r). -/
def isValidIDRune (r : Char) : Bool :=
  if r.toNat > 0x7F then false
  else goIsLetterASCII r || goIsNumberASCII r

/-- Lowercase hexadecimal rendering of a natural number, as produced by
Go fmt with the x verb on a rune value. -/
def natToHex (n : Nat) : String := String.mk (Nat.toDigits 16 n)

/-- fileIDFromDisplayName (storage/file.go): a strings.Builder fold over
the runes of v; valid runes are written through, every other rune r is
written as the underscore-delimited lowercase hex of its code point. -/
def fileIDFromDisplayName (v : String) : String :=
  v.data.foldl
    (fun sb r =>
      if isValidIDRune r then sb.push r
      else sb ++ "_" ++ natToHex r.toNat ++ "_")
    ""

/-- S.makeFileForName (storage/storage.go): the storage ID of a display
name is the file-ID of its sanitised (trimmed) form. -/
def storageId (name : String) : String :=
  fileIDFromDisplayName (sanitizeDisplayName name)

/-- Stated from the spec sentence of C9: an ASCII letter or digit is
kept. -/
def specKeepRune (r : Char) : Bool := goIsLetterASCII r || goIsNumberASCII r

/-- Stated from the spec sentence of C9: a kept rune passes unchanged,
every other rune becomes an underscore, the lowercase hex of its code
point, and an underscore. -/
def specEncodeRune (r : Char) : String :=
  if specKeepRune r then String.singleton r
  else "_" ++ natToHex r.toNat ++ "_"

/-- Stated from the spec sentence of C9: the ID is the in-order
concatenation of the per-rune encodings of the canonical (trimmed)
display name. -/
def specFileID (v : String) : String :=
  String.join ((goTrimSpace v).data.map specEncodeRune)

theorem isValidIDRune_eq_specKeepRune (r : Char) :
    isValidIDRune r = specKeepRune r := by
  unfold isValidIDRune specKeepRune
  split
  · rename_i h
    unfold goIsLetterASCII goIsNumberASCII
    symm
    simp only [Bool.or_eq_false_iff, Bool.and_eq_false_iff,
      decide_eq_false_iff_not, not_le]
    omega
  · rfl

theorem push_eq_append_singleton (s : String) (c : Char) :
    s.push c = s ++ String.singleton c := by
  apply String.ext
  simp [String.data_push, String.data_append, String.singleton]

theorem join_cons_string (s : String) (l : List String) :
    String.join (s :: l) = s ++ String.join l := by
  apply String.ext
  simp [String.join_eq, String.data_append]

theorem fileID_step_eq (sb : String) (r : Char) :
    (if isValidIDRune r then sb.push r
     else sb ++ "_" ++ natToHex r.toNat ++ "_") = sb ++ specEncodeRune r := by
  rw [isValidIDRune_eq_specKeepRune]
  unfold specEncodeRune
  split
  · exact push_eq_append_singleton sb r
  · apply String.ext
    simp [String.data_append, List.append_assoc]

theorem fileID_foldl_append (l : List Char) (sb : String) :
    l.foldl
      (fun sb r =>
        if isValidIDRune r then sb.push r
        else sb ++ "_" ++ natToHex r.toNat ++ "_")
      sb = sb ++ String.join (l.map specEncodeRune) := by
  induction l generalizing sb with
  | nil =>
    simp only [List.foldl_nil, List.map_nil]
    rw [show String.join ([] : List String) = "" from rfl, String.append_empty]
  | cons c l ih =>
    simp only [List.foldl_cons, List.map_cons]
    rw [fileID_step_eq, ih, join_cons_string, String.append_assoc]

/-- C9: the storage ID of a display name v is computed rune by rune from
the canonical (whitespace-trimmed) name: ASCII letters and digits pass
unchanged, and every other rune r becomes an underscore followed by the
lowercase hex of its code point followed by an underscore, concatenated
in input order. -/
theorem storageId_eq_specFileID (v : String) :
    storageId v = specFileID v := by
  unfold storageId fileIDFromDisplayName sanitizeDisplayName specFileID
  rw [fileID_foldl_append, String.empty_append]

/-! ## The default file (util/atomicfile.go, storage/storage.go)

The filesystem state relevant to S.SetDefault / S.GetDefault is the
contents of the files/default path (none when the file does not exist)
and the contents of the in-flight temporary file that CreateViaTempMove
writes into the temporary directory. I/O failures are injected through
an oracle naming the first step of CreateViaTempMove that fails. -/

/-- The steps of util.CreateViaTempMove that can fail: creating the temp
file, running the content-generating callback, closing the temp file,
and renaming it over the target path. -/
inductive WriteStep
  | createTemp
  | genContent
  | closeFile
  | rename
deriving DecidableEq

/-- The filesystem as seen by the default-file code: the contents of the
target path (files/default) and of the in-flight temporary file. -/
structure FsState where
  target : Option String
  temp : Option String
deriving DecidableEq

/-- util.CreateViaTempMove: create a temp file, generate its contents
(here: write the string content), close it, and os.Rename it over the
target path; on any failure the deferred cleanup closes and removes the
temp file, and the target path is untouched. failAt names the first
failing step, none meaning every step succeeds. -/
def CreateViaTempMove (fs : FsState) (content : String)
    (failAt : Option WriteStep) : Option Unit × FsState :=
  match failAt with
  | some WriteStep.createTemp =>
    -- ioutil.TempFile failed; nothing was created, the target untouched.
    (some (), fs)
  | some WriteStep.genContent =>
    -- The temp file was created, then fn failed; the defer closes fd and
    -- removes the temp file. The target is untouched.
    (some (), { fs with temp := none })
  | some WriteStep.closeFile =>
    -- The temp file was created and written, then fd.Close failed; the
    -- defer removes the temp file. The target is untouched.
    (some (), { fs with temp := none })
  | some WriteStep.rename =>
    -- The temp file was created, written and closed, then os.Rename
    -- failed; the defer removes the temp file. The target is untouched.
    (some (), { fs with temp := none })
  | none =>
    -- Every step succeeded: the temp file was created, filled with the
    -- content, closed, and os.Rename atomically moved it over the target.
    (none, { fs with target := some content, temp := none })

/-- S.SetDefault (storage/storage.go): an empty name removes the default
file (a missing file is not an error); otherwise the name is written to
files/default via util.CreateViaTempMove. -/
def SetDefault (fs : FsState) (name : String)
    (failAt : Option WriteStep) : Option Unit × FsState :=
  if name = "" then
    (none, { fs with target := none })
  else
    CreateViaTempMove fs name failAt

/-- S.GetDefault (storage/storage.go): read files/default; a missing
file reads as the empty string with a nil error. -/
def GetDefault (fs : FsState) : Option Unit × String :=
  match fs.target with
  | none => (none, "")
  | some content => (none, content)

/-- C7: for every string x, after SetDefault(x) succeeds GetDefault
returns x with no error; for x = "" the default entry is removed, and a
missing default also reads back as the empty string with no error. -/
theorem setDefault_getDefault (fs fs' : FsState) (x : String)
    (h : SetDefault fs x none = (none, fs')) :
    GetDefault fs' = (none, x) ∧ (x = "" → fs'.target = none) := by
  unfold SetDefault CreateViaTempMove at h
  by_cases hx : x = ""
  · subst hx
    simp only [if_pos rfl] at h
    cases h
    exact ⟨rfl, fun _ => rfl⟩
  · rw [if_neg hx] at h
    simp only [Prod.mk.injEq, true_and] at h
    refine ⟨?_, fun hc => absurd hc hx⟩
    rw [← h]
    rfl

theorem setDefault_getDefault_witness :
    GetDefault (SetDefault ⟨some "old", none⟩ "new" none).2 = (none, "new") ∧
    ("new" = "" → (SetDefault ⟨some "old", none⟩ "new" none).2.target = none) :=
  setDefault_getDefault ⟨some "old", none⟩
    (SetDefault ⟨some "old", none⟩ "new" none).2 "new" rfl

/-- C8: SetDefault is atomic with respect to failure: whenever any step
of CreateViaTempMove fails (creating the temp file, generating its
contents, closing it, or the rename), SetDefault returns an error and
the stored default contents are unchanged; the target is replaced (by
the completed temp file, via rename) only on full success. -/
theorem setDefault_atomic (fs : FsState) (name : String)
    (failAt : Option WriteStep) (hname : name ≠ "") :
    ((SetDefault fs name failAt).1.isSome →
      (SetDefault fs name failAt).2.target = fs.target) ∧
    ((SetDefault fs name failAt).1 = none →
      (SetDefault fs name failAt).2.target = some name) ∧
    (failAt ≠ none → (SetDefault fs name failAt).1.isSome) := by
  unfold SetDefault CreateViaTempMove
  simp only [if_neg hname]
  rcases failAt with _ | step
  · simp
  · cases step <;> simp

theorem setDefault_atomic_witness :
    (SetDefault ⟨some "old", none⟩ "new" (some WriteStep.rename)).1.isSome ∧
    (SetDefault ⟨some "old", none⟩ "new" (some WriteStep.rename)).2.target
      = some "old" :=
  ⟨(setDefault_atomic ⟨some "old", none⟩ "new" (some WriteStep.rename)
      (by decide)).2.2 (by decide),
   (setDefault_atomic ⟨some "old", none⟩ "new" (some WriteStep.rename)
      (by decide)).1 (by decide)⟩

/-! ## The Controller state machine (controller.go)

The Controller serialises all operations under one mutex; the model
exposes the state at the points where the mutex is released. The proxy
manager is represented by its lease multiset (a list of holders;
AddLease conses, RemoveLease erases one occurrence — modelled from the
spec, the manager lives in the gopushpixels dependency). The replay
player is represented by its paused flag and the identity of the
playback lease it holds (modelled from the spec: Play acquires the
lease, Stop releases it, Pause and Resume leave it alone).

File-open outcomes (Storage.OpenWriter / Storage.OpenReader) and the
storage merge outcome are injected as Boolean oracles on the operations
that perform them. -/

/-- A holder of a forwarding lease in the proxy manager's multiset:
either the Controller itself (its manual lease, added and removed by
SetProxyForwarding and removed once more when Run exits), or a
proxyManagerPlaybackLeaser instance created for one player; distinct
players are distinct holders, told apart by a freshness counter. -/
inductive Holder
  | controller
  | playbackLeaser (id : Nat)
deriving DecidableEq

/-- Modelled from the spec: the state of a replay.Player that the
controller observes — the identity of its playback lease and whether it
is paused. (The player itself lives in the gopushpixels dependency.) -/
structure PlayerState where
  leaseId : Nat
  paused : Bool
deriving DecidableEq

/-- The mutex-protected fields of Controller (controller.go), with the
recorder and its proxy listener reduced to presence. -/
structure CtrlState where
  isRunning : Bool
  player : Option PlayerState
  playingName : String
  autoResumeListener : Bool
  recorder : Option Unit
  recorderListener : Bool
  recordingName : String
  hasProxyManagerLease : Bool
deriving DecidableEq

/-- The world the claims quantify over: the controller, the proxy
manager's lease multiset, the storage entries (by storage ID), a log of
the merges delegated to storage, a freshness counter for playback-lease
holders, and a ghost flag recording that Run has exited. -/
structure World where
  ctrl : CtrlState
  leases : List Holder
  nextLeaseId : Nat
  entries : List String
  mergeCalls : List (String × List String)
  exited : Bool
deriving DecidableEq

/-- Typed errors returned by Controller operations. -/
inductive CtrlErr
  | notRunning
  | io
  | noSources
deriving DecidableEq

/-- The initial world: a fresh Controller over a proxy manager with no
leases; es are the storage entries present on disk at startup. -/
def initWorld (es : List String) : World :=
  { ctrl := { isRunning := false, player := none, playingName := "",
              autoResumeListener := false, recorder := none,
              recorderListener := false, recordingName := "",
              hasProxyManagerLease := false },
    leases := [], nextLeaseId := 0, entries := es, mergeCalls := [],
    exited := false }

/-- Controller.stopTaskLocked: stop and nil the player (Player.Stop
releases its playback lease — modelled from the spec), stop and nil the
auto-resume listener, detach the recorder listener, stop and nil the
recorder. -/
def stopTaskLocked (w : World) : World :=
  let w :=
    match w.ctrl.player with
    | some p =>
      { w with ctrl := { w.ctrl with player := none, playingName := "" },
               leases := w.leases.erase (Holder.playbackLeaser p.leaseId) }
    | none => w
  let w :=
    if w.ctrl.autoResumeListener then
      { w with ctrl := { w.ctrl with autoResumeListener := false } }
    else w
  let w :=
    if w.ctrl.recorderListener then
      { w with ctrl := { w.ctrl with recorderListener := false } }
    else w
  match w.ctrl.recorder with
  | some _ =>
    { w with ctrl := { w.ctrl with recorder := none, recordingName := "" } }
  | none => w

/-- Controller.Run, entry: mark running and run stopTaskLocked. The
application (app.go) invokes Run exactly once; a second entry (which
would panic on the isRunning check) is not modelled. Run then plays the
default file, which appears in traces as a separate PlayFile step. -/
def runEnter (w : World) : World :=
  if w.ctrl.isRunning || w.exited then w
  else stopTaskLocked { w with ctrl := { w.ctrl with isRunning := true } }

/-- Controller.Run, deferred exit: remove the controller's proxy-manager
lease, run stopTaskLocked, and mark not running. Note that
hasProxyManagerLease is not cleared. -/
def runExit (w : World) : World :=
  if !w.ctrl.isRunning then w
  else
    let w := { w with leases := w.leases.erase Holder.controller }
    let w := stopTaskLocked w
    { w with ctrl := { w.ctrl with isRunning := false }, exited := true }

/-- Controller.RecordFile: require running; stop the current task; open
the storage writer (outcome openOk); on success install the recorder and
its proxy listener and remember the recording name. -/
def RecordFile (name : String) (openOk : Bool) (w : World) :
    Except CtrlErr Unit × World :=
  if !w.ctrl.isRunning then (Except.error CtrlErr.notRunning, w)
  else
    let w := stopTaskLocked w
    if !openOk then (Except.error CtrlErr.io, w)
    else
      (Except.ok (),
       { w with ctrl :=
          { w.ctrl with recorder := some (), recorderListener := true,
                        recordingName := name } })

/-- Controller.PlayFile: require running; stop the current task; open
the storage reader (outcome openOk); on success install a player, whose
Play acquires a fresh playback lease (modelled from the spec), and
remember the playing name. -/
def PlayFile (name : String) (openOk : Bool) (w : World) :
    Except CtrlErr Unit × World :=
  if !w.ctrl.isRunning then (Except.error CtrlErr.notRunning, w)
  else
    let w := stopTaskLocked w
    if !openOk then (Except.error CtrlErr.io, w)
    else
      (Except.ok (),
       { w with ctrl :=
          { w.ctrl with
            player := some { leaseId := w.nextLeaseId, paused := false },
            playingName := name },
                leases := Holder.playbackLeaser w.nextLeaseId :: w.leases,
                nextLeaseId := w.nextLeaseId + 1 })

/-- Controller.Stop: require running; stop the current task. -/
def StopOp (w : World) : Except CtrlErr Unit × World :=
  if !w.ctrl.isRunning then (Except.error CtrlErr.notRunning, w)
  else (Except.ok (), stopTaskLocked w)

/-- Controller.PauseFile: require running; pause the player if one
exists; install an auto-resume listener if none is present and the
configured delay is positive; return nil. -/
def PauseFile (delay : Nat) (w : World) : Except CtrlErr Unit × World :=
  if !w.ctrl.isRunning then (Except.error CtrlErr.notRunning, w)
  else
    let w :=
      match w.ctrl.player with
      | some p =>
        { w with ctrl := { w.ctrl with player := some { p with paused := true } } }
      | none => w
    let w :=
      if !w.ctrl.autoResumeListener && decide (0 < delay) then
        { w with ctrl := { w.ctrl with autoResumeListener := true } }
      else w
    (Except.ok (), w)

/-- Controller.ResumeFile: require running; stop any auto-resume
listener; resume the player if one exists; return nil. -/
def ResumeFile (w : World) : Except CtrlErr Unit × World :=
  if !w.ctrl.isRunning then (Except.error CtrlErr.notRunning, w)
  else
    let w :=
      if w.ctrl.autoResumeListener then
        { w with ctrl := { w.ctrl with autoResumeListener := false } }
      else w
    let w :=
      match w.ctrl.player with
      | some p =>
        { w with ctrl := { w.ctrl with player := some { p with paused := false } } }
      | none => w
    (Except.ok (), w)

/-- Controller.DeleteFile: require running; if the recorder is recording
exactly this name, stop the task; if the player is playing exactly this
name, stop the task; then delete the storage entry for the name's
storage ID. -/
def DeleteFile (name : String) (w : World) : Except CtrlErr Unit × World :=
  if !w.ctrl.isRunning then (Except.error CtrlErr.notRunning, w)
  else
    let w :=
      if w.ctrl.recorder.isSome && w.ctrl.recordingName == name then
        stopTaskLocked w
      else w
    let w :=
      if w.ctrl.player.isSome && w.ctrl.playingName == name then
        stopTaskLocked w
      else w
    (Except.ok (), { w with entries := w.entries.erase (storageId name) })

/-- Controller.MergeFiles: an empty source list is an error before
anything else happens; otherwise the merge is delegated to
Storage.MergeFiles (outcome mergeOk) with no running check, no lock, and
no interaction with the current task. -/
def MergeFiles (dest : String) (srcs : List String) (mergeOk : Bool)
    (w : World) : Except CtrlErr Unit × World :=
  if srcs = [] then (Except.error CtrlErr.noSources, w)
  else
    ((if mergeOk then Except.ok () else Except.error CtrlErr.io),
     { w with mergeCalls := w.mergeCalls ++ [(dest, srcs)] })

/-- Controller.SetProxyForwarding: no running check; forward = true
removes the controller's lease, forward = false adds it; the
hasProxyManagerLease flag is set to the negation of forward. -/
def SetProxyForwarding (forward : Bool) (w : World) :
    Except CtrlErr Unit × World :=
  let w :=
    if forward then { w with leases := w.leases.erase Holder.controller }
    else { w with leases := Holder.controller :: w.leases }
  (Except.ok (), { w with ctrl := { w.ctrl with hasProxyManagerLease := !forward } })

/-- The operations of the Controller surface that the claims range over,
with their I/O outcomes. -/
inductive Op
  | runEnter
  | runExit
  | recordFile (name : String) (openOk : Bool)
  | playFile (name : String) (openOk : Bool)
  | stop
  | pauseFile
  | resumeFile
  | deleteFile (name : String)
  | mergeFiles (dest : String) (srcs : List String) (mergeOk : Bool)
  | setProxyForwarding (forward : Bool)

/-- The state reached after one operation (delay is the configured
AutoResumeDelay, fixed for the process lifetime). -/
def applyOp (delay : Nat) (op : Op) (w : World) : World :=
  match op with
  | Op.runEnter => runEnter w
  | Op.runExit => runExit w
  | Op.recordFile name openOk => (RecordFile name openOk w).2
  | Op.playFile name openOk => (PlayFile name openOk w).2
  | Op.stop => (StopOp w).2
  | Op.pauseFile => (PauseFile delay w).2
  | Op.resumeFile => (ResumeFile w).2
  | Op.deleteFile name => (DeleteFile name w).2
  | Op.mergeFiles dest srcs mergeOk => (MergeFiles dest srcs mergeOk w).2
  | Op.setProxyForwarding forward => (SetProxyForwarding forward w).2

/-- The worlds reachable from startup (with storage entries es on disk)
through any sequence of controller operations. -/
inductive Reachable (delay : Nat) (es : List String) : World → Prop
  | init : Reachable delay es (initWorld es)
  | step {w : World} (op : Op) :
      Reachable delay es w → Reachable delay es (applyOp delay op w)

theorem stopTask_spec (w : World) :
    (stopTaskLocked w).ctrl.player = none ∧
    (stopTaskLocked w).ctrl.recorder = none ∧
    (stopTaskLocked w).ctrl.autoResumeListener = false ∧
    (stopTaskLocked w).ctrl.recorderListener = false ∧
    (stopTaskLocked w).ctrl.isRunning = w.ctrl.isRunning ∧
    (stopTaskLocked w).ctrl.hasProxyManagerLease
      = w.ctrl.hasProxyManagerLease ∧
    (stopTaskLocked w).exited = w.exited ∧
    (stopTaskLocked w).entries = w.entries ∧
    (stopTaskLocked w).mergeCalls = w.mergeCalls ∧
    (stopTaskLocked w).nextLeaseId = w.nextLeaseId := by
  unfold stopTaskLocked
  cases hp : w.ctrl.player <;> cases hr : w.ctrl.recorder <;>
    cases ha : w.ctrl.autoResumeListener <;>
    cases hl : w.ctrl.recorderListener <;>
    simp [hp, hr, ha, hl]

theorem stopTask_leases (w : World) :
    (stopTaskLocked w).leases =
      (match w.ctrl.player with
       | some p => w.leases.erase (Holder.playbackLeaser p.leaseId)
       | none => w.leases) := by
  unfold stopTaskLocked
  cases hp : w.ctrl.player <;> cases hr : w.ctrl.recorder <;>
    cases ha : w.ctrl.autoResumeListener <;>
    cases hl : w.ctrl.recorderListener <;>
    simp [hp, hr, ha, hl]

theorem stopTask_controller_mem (w : World)
    (h : Holder.controller ∈ w.leases) :
    Holder.controller ∈ (stopTaskLocked w).leases := by
  rw [stopTask_leases]
  cases hp : w.ctrl.player with
  | none => exact h
  | some p =>
    exact (List.mem_erase_of_ne (by simp)).mpr h

/-! ### Characterisations of the operations -/

theorem runEnter_eq (w : World) :
    runEnter w = w ∨
    (w.ctrl.isRunning = false ∧ w.exited = false ∧
      runEnter w
        = stopTaskLocked { w with ctrl := { w.ctrl with isRunning := true } }) := by
  unfold runEnter
  cases hr : w.ctrl.isRunning <;> cases hx : w.exited <;> simp [hr, hx]

theorem runExit_eq (w : World) :
    runExit w = w ∨
    (w.ctrl.isRunning = true ∧
      runExit w =
        (let w1 := stopTaskLocked
          { w with leases := w.leases.erase Holder.controller }
        { w1 with ctrl := { w1.ctrl with isRunning := false },
                  exited := true })) := by
  unfold runExit
  cases hr : w.ctrl.isRunning <;> simp [hr]

theorem recordFile_eq (name : String) (openOk : Bool) (w : World) :
    (w.ctrl.isRunning = false ∧
      RecordFile name openOk w = (Except.error CtrlErr.notRunning, w)) ∨
    (w.ctrl.isRunning = true ∧ openOk = false ∧
      RecordFile name openOk w = (Except.error CtrlErr.io, stopTaskLocked w)) ∨
    (w.ctrl.isRunning = true ∧ openOk = true ∧
      RecordFile name openOk w =
        (Except.ok (),
         (let w1 := stopTaskLocked w
          { w1 with ctrl :=
            { w1.ctrl with recorder := some (), recorderListener := true,
                           recordingName := name } }))) := by
  unfold RecordFile
  cases hr : w.ctrl.isRunning <;> cases ho : openOk <;> simp [hr, ho]

theorem playFile_eq (name : String) (openOk : Bool) (w : World) :
    (w.ctrl.isRunning = false ∧
      PlayFile name openOk w = (Except.error CtrlErr.notRunning, w)) ∨
    (w.ctrl.isRunning = true ∧ openOk = false ∧
      PlayFile name openOk w = (Except.error CtrlErr.io, stopTaskLocked w)) ∨
    (w.ctrl.isRunning = true ∧ openOk = true ∧
      PlayFile name openOk w =
        (Except.ok (),
         (let w1 := stopTaskLocked w
          { w1 with
            ctrl :=
              { w1.ctrl with
                player := some { leaseId := w1.nextLeaseId, paused := false },
                playingName := name },
            leases := Holder.playbackLeaser w1.nextLeaseId :: w1.leases,
            nextLeaseId := w1.nextLeaseId + 1 }))) := by
  unfold PlayFile
  cases hr : w.ctrl.isRunning <;> cases ho : openOk <;> simp [hr, ho]

theorem stopOp_eq (w : World) :
    (w.ctrl.isRunning = false ∧
      StopOp w = (Except.error CtrlErr.notRunning, w)) ∨
    (w.ctrl.isRunning = true ∧ StopOp w = (Except.ok (), stopTaskLocked w)) := by
  unfold StopOp
  cases hr : w.ctrl.isRunning <;> simp [hr]

theorem pauseFile_fields (delay : Nat) (w : World) :
    (PauseFile delay w).2.ctrl.recorder = w.ctrl.recorder ∧
    (PauseFile delay w).2.ctrl.player
      = (if w.ctrl.isRunning then
          w.ctrl.player.map (fun p => { p with paused := true })
         else w.ctrl.player) ∧
    (PauseFile delay w).2.ctrl.isRunning = w.ctrl.isRunning ∧
    (PauseFile delay w).2.ctrl.hasProxyManagerLease
      = w.ctrl.hasProxyManagerLease ∧
    (PauseFile delay w).2.leases = w.leases ∧
    (PauseFile delay w).2.exited = w.exited ∧
    (PauseFile delay w).2.ctrl.autoResumeListener
      = (w.ctrl.autoResumeListener || (w.ctrl.isRunning && decide (0 < delay))) ∧
    ((PauseFile delay w).1
      = if w.ctrl.isRunning then Except.ok ()
        else Except.error CtrlErr.notRunning) := by
  unfold PauseFile
  cases hr : w.ctrl.isRunning <;> cases hp : w.ctrl.player <;>
    cases ha : w.ctrl.autoResumeListener <;> by_cases hd : 0 < delay <;>
    simp [hr, hp, ha, hd]

theorem resumeFile_fields (w : World) :
    (ResumeFile w).2.ctrl.recorder = w.ctrl.recorder ∧
    (ResumeFile w).2.ctrl.player
      = (if w.ctrl.isRunning then
          w.ctrl.player.map (fun p => { p with paused := false })
         else w.ctrl.player) ∧
    (ResumeFile w).2.ctrl.isRunning = w.ctrl.isRunning ∧
    (ResumeFile w).2.ctrl.hasProxyManagerLease
      = w.ctrl.hasProxyManagerLease ∧
    (ResumeFile w).2.leases = w.leases ∧
    (ResumeFile w).2.exited = w.exited ∧
    (ResumeFile w).2.ctrl.autoResumeListener
      = (w.ctrl.autoResumeListener && !w.ctrl.isRunning) := by
  unfold ResumeFile
  cases hr : w.ctrl.isRunning <;> cases hp : w.ctrl.player <;>
    cases ha : w.ctrl.autoResumeListener <;> simp [hr, hp, ha]

theorem deleteFile_eq (name : String) (w : World) :
    (w.ctrl.isRunning = false ∧
      DeleteFile name w = (Except.error CtrlErr.notRunning, w)) ∨
    (w.ctrl.isRunning = true ∧
      ((w.ctrl.recorder.isSome && w.ctrl.recordingName == name)
        || (w.ctrl.player.isSome && w.ctrl.playingName == name)) = true ∧
      DeleteFile name w =
        (Except.ok (),
         (let w1 := stopTaskLocked w
          { w1 with entries := w1.entries.erase (storageId name) }))) ∨
    (w.ctrl.isRunning = true ∧
      ((w.ctrl.recorder.isSome && w.ctrl.recordingName == name)
        || (w.ctrl.player.isSome && w.ctrl.playingName == name)) = false ∧
      DeleteFile name w =
        (Except.ok (), { w with entries := w.entries.erase (storageId name) })) := by
  unfold DeleteFile
  cases hr : w.ctrl.isRunning
  · simp [hr]
  · by_cases h1 : (w.ctrl.recorder.isSome && w.ctrl.recordingName == name) = true
    · right; left
      refine ⟨rfl, by simp [h1], ?_⟩
      have h2 : ((stopTaskLocked w).ctrl.player.isSome
          && (stopTaskLocked w).ctrl.playingName == name) = false := by
        rw [(stopTask_spec w).1]
        rfl
      simp [hr, h1, h2]
    · by_cases h2 : (w.ctrl.player.isSome && w.ctrl.playingName == name) = true
      · right; left
        refine ⟨rfl, by simp [h2], ?_⟩
        simp [hr, h1, h2]
      · right; right
        refine ⟨rfl, by simp [h1, h2], ?_⟩
        simp [hr, h1, h2]

theorem mergeFiles_eq (dest : String) (srcs : List String) (mergeOk : Bool)
    (w : World) :
    (srcs = [] ∧
      MergeFiles dest srcs mergeOk w = (Except.error CtrlErr.noSources, w)) ∨
    (srcs ≠ [] ∧
      MergeFiles dest srcs mergeOk w =
        ((if mergeOk then Except.ok () else Except.error CtrlErr.io),
         { w with mergeCalls := w.mergeCalls ++ [(dest, srcs)] })) := by
  unfold MergeFiles
  by_cases hs : srcs = [] <;> simp [hs]

theorem setProxyForwarding_eq (forward : Bool) (w : World) :
    SetProxyForwarding forward w =
      (Except.ok (),
       { w with
         ctrl := { w.ctrl with hasProxyManagerLease := !forward },
         leases := if forward then w.leases.erase Holder.controller
                   else Holder.controller :: w.leases }) := by
  unfold SetProxyForwarding
  cases forward <;> simp

/-- C1: in every reachable state, at most one of the controller's
recorder and player fields is non-null: RecordFile and PlayFile install
their task only after stopTaskLocked has nil'd both, and every other
operation preserves the property. -/
theorem at_most_one_task {delay : Nat} {es : List String} {w : World}
    (h : Reachable delay es w) :
    w.ctrl.recorder = none ∨ w.ctrl.player = none := by
  induction h with
  | init => exact Or.inl rfl
  | @step w' op _ ih =>
    cases op with
    | runEnter =>
      show (runEnter w').ctrl.recorder = none ∨ (runEnter w').ctrl.player = none
      rcases runEnter_eq w' with he | ⟨_, _, he⟩
      · rw [he]; exact ih
      · rw [he]; exact Or.inl (stopTask_spec _).2.1
    | runExit =>
      show (runExit w').ctrl.recorder = none ∨ (runExit w').ctrl.player = none
      rcases runExit_eq w' with he | ⟨_, he⟩
      · rw [he]; exact ih
      · rw [he]; exact Or.inl (stopTask_spec _).2.1
    | recordFile name openOk =>
      show (RecordFile name openOk w').2.ctrl.recorder = none ∨
        (RecordFile name openOk w').2.ctrl.player = none
      rcases recordFile_eq name openOk w' with ⟨_, he⟩ | ⟨_, _, he⟩ | ⟨_, _, he⟩
      · rw [he]; exact ih
      · rw [he]; exact Or.inl (stopTask_spec _).2.1
      · rw [he]; exact Or.inr (stopTask_spec _).1
    | playFile name openOk =>
      show (PlayFile name openOk w').2.ctrl.recorder = none ∨
        (PlayFile name openOk w').2.ctrl.player = none
      rcases playFile_eq name openOk w' with ⟨_, he⟩ | ⟨_, _, he⟩ | ⟨_, _, he⟩
      · rw [he]; exact ih
      · rw [he]; exact Or.inl (stopTask_spec _).2.1
      · rw [he]; exact Or.inl (stopTask_spec _).2.1
    | stop =>
      show (StopOp w').2.ctrl.recorder = none ∨ (StopOp w').2.ctrl.player = none
      rcases stopOp_eq w' with ⟨_, he⟩ | ⟨_, he⟩
      · rw [he]; exact ih
      · rw [he]; exact Or.inl (stopTask_spec _).2.1
    | pauseFile =>
      show (PauseFile delay w').2.ctrl.recorder = none ∨
        (PauseFile delay w').2.ctrl.player = none
      rcases ih with ih | ih
      · exact Or.inl (((pauseFile_fields delay w').1).trans ih)
      · refine Or.inr (((pauseFile_fields delay w').2.1).trans ?_)
        rw [ih]
        cases w'.ctrl.isRunning <;> rfl
    | resumeFile =>
      show (ResumeFile w').2.ctrl.recorder = none ∨
        (ResumeFile w').2.ctrl.player = none
      rcases ih with ih | ih
      · exact Or.inl (((resumeFile_fields w').1).trans ih)
      · refine Or.inr (((resumeFile_fields w').2.1).trans ?_)
        rw [ih]
        cases w'.ctrl.isRunning <;> rfl
    | deleteFile name =>
      show (DeleteFile name w').2.ctrl.recorder = none ∨
        (DeleteFile name w').2.ctrl.player = none
      rcases deleteFile_eq name w' with ⟨_, he⟩ | ⟨_, _, he⟩ | ⟨_, _, he⟩
      · rw [he]; exact ih
      · rw [he]; exact Or.inl (stopTask_spec _).2.1
      · rw [he]; exact ih
    | mergeFiles dest srcs mergeOk =>
      show (MergeFiles dest srcs mergeOk w').2.ctrl.recorder = none ∨
        (MergeFiles dest srcs mergeOk w').2.ctrl.player = none
      rcases mergeFiles_eq dest srcs mergeOk w' with ⟨_, he⟩ | ⟨_, he⟩
      · rw [he]; exact ih
      · rw [he]; exact ih
    | setProxyForwarding forward =>
      show (SetProxyForwarding forward w').2.ctrl.recorder = none ∨
        (SetProxyForwarding forward w').2.ctrl.player = none
      rw [setProxyForwarding_eq]
      exact ih

theorem at_most_one_task_witness :
    (initWorld []).ctrl.recorder = none ∨ (initWorld []).ctrl.player = none :=
  at_most_one_task (@Reachable.init 0 [])

/-! ### The forwarding-lease invariant -/

/-- The lease invariant of the spec: the proxy manager's lease multiset
contains the controller's manual lease whenever hasProxyManagerLease is
set, and the player's playback lease whenever a playing task exists. -/
def leaseInvariant (w : World) : Prop :=
  (w.ctrl.hasProxyManagerLease = true → Holder.controller ∈ w.leases) ∧
  (∀ p : PlayerState, w.ctrl.player = some p →
    Holder.playbackLeaser p.leaseId ∈ w.leases)

theorem exited_mono (delay : Nat) (op : Op) (w : World)
    (h : w.exited = true) : (applyOp delay op w).exited = true := by
  cases op with
  | runEnter =>
    show (runEnter w).exited = true
    unfold runEnter
    cases hr : w.ctrl.isRunning <;> simp [hr, h]
  | runExit =>
    show (runExit w).exited = true
    rcases runExit_eq w with he | ⟨_, he⟩ <;> rw [he]
    · exact h
  | recordFile name openOk =>
    show (RecordFile name openOk w).2.exited = true
    rcases recordFile_eq name openOk w with ⟨_, he⟩ | ⟨_, _, he⟩ | ⟨_, _, he⟩ <;>
      rw [he]
    · exact h
    · exact (stopTask_spec w).2.2.2.2.2.2.1.trans h
    · exact (stopTask_spec w).2.2.2.2.2.2.1.trans h
  | playFile name openOk =>
    show (PlayFile name openOk w).2.exited = true
    rcases playFile_eq name openOk w with ⟨_, he⟩ | ⟨_, _, he⟩ | ⟨_, _, he⟩ <;>
      rw [he]
    · exact h
    · exact (stopTask_spec w).2.2.2.2.2.2.1.trans h
    · exact (stopTask_spec w).2.2.2.2.2.2.1.trans h
  | stop =>
    show (StopOp w).2.exited = true
    rcases stopOp_eq w with ⟨_, he⟩ | ⟨_, he⟩ <;> rw [he]
    · exact h
    · exact (stopTask_spec w).2.2.2.2.2.2.1.trans h
  | pauseFile =>
    exact ((pauseFile_fields delay w).2.2.2.2.2.1).trans h
  | resumeFile =>
    exact ((resumeFile_fields w).2.2.2.2.2.1).trans h
  | deleteFile name =>
    show (DeleteFile name w).2.exited = true
    rcases deleteFile_eq name w with ⟨_, he⟩ | ⟨_, _, he⟩ | ⟨_, _, he⟩ <;> rw [he]
    · exact h
    · exact (stopTask_spec w).2.2.2.2.2.2.1.trans h
    · exact h
  | mergeFiles dest srcs mergeOk =>
    show (MergeFiles dest srcs mergeOk w).2.exited = true
    rcases mergeFiles_eq dest srcs mergeOk w with ⟨_, he⟩ | ⟨_, he⟩ <;> rw [he]
    · exact h
    · exact h
  | setProxyForwarding forward =>
    show (SetProxyForwarding forward w).2.exited = true
    rw [setProxyForwarding_eq]
    exact h

/-- C2 (amended): in every reachable state in which Run has not yet
exited, the proxy manager's lease multiset contains the controller's
manual lease whenever hasProxyManagerLease is set, and the player's
playback lease whenever a playing task exists. (Run's deferred exit
removes the controller's lease without clearing hasProxyManagerLease, so
the clause about the manual lease can fail after exit.) -/
theorem lease_invariant {delay : Nat} {es : List String} {w : World}
    (h : Reachable delay es w) (hx : w.exited = false) : leaseInvariant w := by
  induction h with
  | init =>
    refine ⟨fun hf => ?_, fun p hp => ?_⟩
    · cases hf
    · cases hp
  | @step w' op hw ih =>
    have hx' : w'.exited = false := by
      cases hw' : w'.exited
      · rfl
      · rw [exited_mono delay op w' hw'] at hx
        cases hx
    have ihv : leaseInvariant w' := ih hx'
    clear ih hw hx'
    cases op with
    | runEnter =>
      show leaseInvariant (runEnter w')
      rcases runEnter_eq w' with he | ⟨_, _, he⟩ <;> rw [he]
      · exact ihv
      · constructor
        · intro hf
          rw [(stopTask_spec _).2.2.2.2.2.1] at hf
          exact stopTask_controller_mem _ (ihv.1 hf)
        · intro p hp
          rw [(stopTask_spec _).1] at hp
          cases hp
    | runExit =>
      rcases runExit_eq w' with he | ⟨_, he⟩
      · show leaseInvariant (runExit w')
        rw [he]; exact ihv
      · exfalso
        have : (applyOp delay Op.runExit w').exited = true := by
          show (runExit w').exited = true
          rw [he]
        rw [this] at hx
        cases hx
    | recordFile name openOk =>
      show leaseInvariant (RecordFile name openOk w').2
      rcases recordFile_eq name openOk w' with ⟨_, he⟩ | ⟨_, _, he⟩ | ⟨_, _, he⟩ <;>
        rw [he]
      · exact ihv
      · constructor
        · intro hf
          rw [(stopTask_spec _).2.2.2.2.2.1] at hf
          exact stopTask_controller_mem _ (ihv.1 hf)
        · intro p hp
          rw [(stopTask_spec _).1] at hp
          cases hp
      · constructor
        · intro hf
          have hf' : (stopTaskLocked w').ctrl.hasProxyManagerLease = true := hf
          rw [(stopTask_spec _).2.2.2.2.2.1] at hf'
          exact stopTask_controller_mem _ (ihv.1 hf')
        · intro p hp
          have : (stopTaskLocked w').ctrl.player = some p := hp
          rw [(stopTask_spec _).1] at this
          cases this
    | playFile name openOk =>
      show leaseInvariant (PlayFile name openOk w').2
      rcases playFile_eq name openOk w' with ⟨_, he⟩ | ⟨_, _, he⟩ | ⟨_, _, he⟩ <;>
        rw [he]
      · exact ihv
      · constructor
        · intro hf
          rw [(stopTask_spec _).2.2.2.2.2.1] at hf
          exact stopTask_controller_mem _ (ihv.1 hf)
        · intro p hp
          rw [(stopTask_spec _).1] at hp
          cases hp
      · constructor
        · intro hf
          have hf' : (stopTaskLocked w').ctrl.hasProxyManagerLease = true := hf
          rw [(stopTask_spec _).2.2.2.2.2.1] at hf'
          exact List.mem_cons_of_mem _ (stopTask_controller_mem _ (ihv.1 hf'))
        · intro p hp
          have : p = { leaseId := (stopTaskLocked w').nextLeaseId,
                       paused := false } := by
            cases hp; rfl
          rw [this]
          exact List.mem_cons_self _ _
    | stop =>
      show leaseInvariant (StopOp w').2
      rcases stopOp_eq w' with ⟨_, he⟩ | ⟨_, he⟩ <;> rw [he]
      · exact ihv
      · constructor
        · intro hf
          rw [(stopTask_spec _).2.2.2.2.2.1] at hf
          exact stopTask_controller_mem _ (ihv.1 hf)
        · intro p hp
          rw [(stopTask_spec _).1] at hp
          cases hp
    | pauseFile =>
      show leaseInvariant (PauseFile delay w').2
      have hf := pauseFile_fields delay w'
      constructor
      · intro hflag
        rw [hf.2.2.2.1] at hflag
        rw [hf.2.2.2.2.1]
        exact ihv.1 hflag
      · intro p hp
        rw [hf.2.1] at hp
        rw [hf.2.2.2.2.1]
        cases hcase : w'.ctrl.player with
        | none =>
          rw [hcase] at hp
          cases hr : w'.ctrl.isRunning <;> rw [hr] at hp <;> simp at hp
        | some q =>
          rw [hcase] at hp
          have hq := ihv.2 q hcase
          cases hr : w'.ctrl.isRunning <;> rw [hr] at hp <;> simp at hp
          · rw [← hp]; exact hq
          · rw [← hp]; exact hq
    | resumeFile =>
      show leaseInvariant (ResumeFile w').2
      have hf := resumeFile_fields w'
      constructor
      · intro hflag
        rw [hf.2.2.2.1] at hflag
        rw [hf.2.2.2.2.1]
        exact ihv.1 hflag
      · intro p hp
        rw [hf.2.1] at hp
        rw [hf.2.2.2.2.1]
        cases hcase : w'.ctrl.player with
        | none =>
          rw [hcase] at hp
          cases hr : w'.ctrl.isRunning <;> rw [hr] at hp <;> simp at hp
        | some q =>
          rw [hcase] at hp
          have hq := ihv.2 q hcase
          cases hr : w'.ctrl.isRunning <;> rw [hr] at hp <;> simp at hp
          · rw [← hp]; exact hq
          · rw [← hp]; exact hq
    | deleteFile name =>
      show leaseInvariant (DeleteFile name w').2
      rcases deleteFile_eq name w' with ⟨_, he⟩ | ⟨_, _, he⟩ | ⟨_, _, he⟩ <;>
        rw [he]
      · exact ihv
      · constructor
        · intro hflag
          have hflag' : (stopTaskLocked w').ctrl.hasProxyManagerLease = true :=
            hflag
          rw [(stopTask_spec _).2.2.2.2.2.1] at hflag'
          exact stopTask_controller_mem _ (ihv.1 hflag')
        · intro p hp
          have : (stopTaskLocked w').ctrl.player = some p := hp
          rw [(stopTask_spec _).1] at this
          cases this
      · exact ihv
    | mergeFiles dest srcs mergeOk =>
      show leaseInvariant (MergeFiles dest srcs mergeOk w').2
      rcases mergeFiles_eq dest srcs mergeOk w' with ⟨_, he⟩ | ⟨_, he⟩ <;> rw [he]
      · exact ihv
      · exact ihv
    | setProxyForwarding forward =>
      show leaseInvariant (SetProxyForwarding forward w').2
      rw [setProxyForwarding_eq]
      cases forward with
      | false =>
        constructor
        · intro _
          exact List.mem_cons_self _ _
        · intro p hp
          exact List.mem_cons_of_mem _ (ihv.2 p hp)
      | true =>
        constructor
        · intro hflag
          cases hflag
        · intro p hp
          exact (List.mem_erase_of_ne (by simp)).mpr (ihv.2 p hp)

theorem lease_invariant_witness : leaseInvariant (initWorld []) :=
  lease_invariant (@Reachable.init 0 []) rfl

/-- The state after the trace SetProxyForwarding(false); Run entry; Run
exit: a reachable state in which hasProxyManagerLease is still set but
the controller's manual lease is no longer in the lease multiset. -/
def leaseCexWorld : World :=
  runExit (runEnter (SetProxyForwarding false (initWorld [])).2)

/-- C2 counterexample: the claim's invariant, read at any instant, fails
after Run exits — the deferred exit removes the controller's lease but
leaves hasProxyManagerLease set. -/
theorem lease_invariant_cex :
    Reachable 0 [] leaseCexWorld ∧
    leaseCexWorld.ctrl.hasProxyManagerLease = true ∧
    Holder.controller ∉ leaseCexWorld.leases :=
  ⟨Reachable.step Op.runExit
    (Reachable.step Op.runEnter
      (Reachable.step (Op.setProxyForwarding false) Reachable.init)),
   by decide, by decide⟩

/-! ### Error-path and per-operation claims -/

/-- A reachable running world with no task: the state right after Run's
entry. -/
def runningWorld : World := runEnter (initWorld [])

/-- C10: when RecordFile fails to open the storage writer, or PlayFile
fails to open the storage reader, the error is returned but the previous
task has already been stopped: afterwards the controller holds neither
recorder nor player. -/
theorem open_failure_leaves_idle (w : World) (name nm : String)
    (h : w.ctrl.isRunning = true) :
    (RecordFile name false w).1 = Except.error CtrlErr.io ∧
    (RecordFile name false w).2.ctrl.recorder = none ∧
    (RecordFile name false w).2.ctrl.player = none ∧
    (PlayFile nm false w).1 = Except.error CtrlErr.io ∧
    (PlayFile nm false w).2.ctrl.recorder = none ∧
    (PlayFile nm false w).2.ctrl.player = none := by
  have hrec : RecordFile name false w
      = (Except.error CtrlErr.io, stopTaskLocked w) := by
    rcases recordFile_eq name false w with ⟨hr, _⟩ | ⟨_, _, he⟩ | ⟨_, ho, _⟩
    · rw [h] at hr; cases hr
    · exact he
    · cases ho
  have hplay : PlayFile nm false w
      = (Except.error CtrlErr.io, stopTaskLocked w) := by
    rcases playFile_eq nm false w with ⟨hr, _⟩ | ⟨_, _, he⟩ | ⟨_, ho, _⟩
    · rw [h] at hr; cases hr
    · exact he
    · cases ho
  rw [hrec, hplay]
  exact ⟨rfl, (stopTask_spec w).2.1, (stopTask_spec w).1, rfl,
    (stopTask_spec w).2.1, (stopTask_spec w).1⟩

theorem open_failure_leaves_idle_witness :
    (RecordFile "a" false runningWorld).1 = Except.error CtrlErr.io ∧
    (RecordFile "a" false runningWorld).2.ctrl.recorder = none ∧
    (RecordFile "a" false runningWorld).2.ctrl.player = none ∧
    (PlayFile "b" false runningWorld).1 = Except.error CtrlErr.io ∧
    (PlayFile "b" false runningWorld).2.ctrl.recorder = none ∧
    (PlayFile "b" false runningWorld).2.ctrl.player = none :=
  open_failure_leaves_idle runningWorld "a" "b" (by decide)

/-- C4 (amended): PauseFile's only precondition is that the controller
is running. While running it returns nil: it pauses the player if one
exists, and it installs an auto-resume listener whenever the configured
delay is positive and no listener is present, whether or not a playing
task exists. While not running it returns the not-running error. -/
theorem pauseFile_requires_only_running (delay : Nat) (w : World) :
    (w.ctrl.isRunning = false →
      PauseFile delay w = (Except.error CtrlErr.notRunning, w)) ∧
    (w.ctrl.isRunning = true →
      (PauseFile delay w).1 = Except.ok () ∧
      (PauseFile delay w).2.ctrl.player
        = w.ctrl.player.map (fun p => { p with paused := true }) ∧
      (PauseFile delay w).2.ctrl.autoResumeListener
        = (w.ctrl.autoResumeListener || decide (0 < delay))) := by
  constructor
  · intro h
    unfold PauseFile
    rw [h]
    rfl
  · intro h
    have hf := pauseFile_fields delay w
    refine ⟨?_, ?_, ?_⟩
    · rw [hf.2.2.2.2.2.2.2, h]
      rfl
    · rw [hf.2.1, h]
      rfl
    · rw [hf.2.2.2.2.2.2.1, h]
      rfl

theorem pauseFile_requires_only_running_witness :
    (PauseFile 1 runningWorld).1 = Except.ok () ∧
    (PauseFile 1 runningWorld).2.ctrl.player
      = runningWorld.ctrl.player.map (fun p => { p with paused := true }) ∧
    (PauseFile 1 runningWorld).2.ctrl.autoResumeListener
      = (runningWorld.ctrl.autoResumeListener || decide (0 < 1)) :=
  (pauseFile_requires_only_running 1 runningWorld).2 (by decide)

/-- C4 counterexample: in the reachable running state with no playing
task and AutoResumeDelay = 1, PauseFile returns nil (not an error) and
installs the auto-resume listener anyway. -/
theorem pauseFile_cex :
    Reachable 1 [] runningWorld ∧
    runningWorld.ctrl.isRunning = true ∧
    runningWorld.ctrl.player = none ∧
    (PauseFile 1 runningWorld).1 = Except.ok () ∧
    (PauseFile 1 runningWorld).2.ctrl.autoResumeListener = true :=
  ⟨Reachable.step Op.runEnter Reachable.init, by decide, by decide,
    rfl, by decide⟩

/-- C5 (amended): MergeFiles checks only that the source list is
non-empty. An empty source list fails before storage is invoked; a
non-empty one is delegated to Storage.MergeFiles regardless of whether
the controller is running, leaving the controller state (recorder,
player, leases) untouched. -/
theorem mergeFiles_no_running_check (dest : String) (srcs : List String)
    (mergeOk : Bool) (w : World) :
    (srcs = [] →
      MergeFiles dest srcs mergeOk w = (Except.error CtrlErr.noSources, w)) ∧
    (srcs ≠ [] →
      (MergeFiles dest srcs mergeOk w).2.mergeCalls
        = w.mergeCalls ++ [(dest, srcs)] ∧
      (MergeFiles dest srcs mergeOk w).2.ctrl = w.ctrl ∧
      (MergeFiles dest srcs mergeOk w).2.leases = w.leases ∧
      (MergeFiles dest srcs mergeOk w).1
        = (if mergeOk then Except.ok () else Except.error CtrlErr.io)) := by
  rcases mergeFiles_eq dest srcs mergeOk w with ⟨hs, he⟩ | ⟨hs, he⟩
  · exact ⟨fun _ => he, fun hne => absurd hs hne⟩
  · refine ⟨fun hnil => absurd hnil hs, fun _ => ?_⟩
    rw [he]
    exact ⟨rfl, rfl, rfl, rfl⟩

theorem mergeFiles_no_running_check_witness :
    (MergeFiles "d" ["s"] true (initWorld [])).2.mergeCalls
      = (initWorld []).mergeCalls ++ [("d", ["s"])] ∧
    (MergeFiles "d" ["s"] true (initWorld [])).2.ctrl = (initWorld []).ctrl ∧
    (MergeFiles "d" ["s"] true (initWorld [])).2.leases
      = (initWorld []).leases ∧
    (MergeFiles "d" ["s"] true (initWorld [])).1
      = (if true then Except.ok () else Except.error CtrlErr.io) :=
  (mergeFiles_no_running_check "d" ["s"] true (initWorld [])).2 (by decide)

/-- C5 counterexample: in the reachable initial state the controller is
not running, yet MergeFiles with a non-empty source list does not return
the not-running error — it delegates the merge to storage. -/
theorem mergeFiles_cex :
    Reachable 0 [] (initWorld []) ∧
    (initWorld []).ctrl.isRunning = false ∧
    (MergeFiles "d" ["s"] true (initWorld [])).1 = Except.ok () ∧
    (MergeFiles "d" ["s"] true (initWorld [])).2.mergeCalls
      = [("d", ["s"])] :=
  ⟨Reachable.init, by decide, rfl, by decide⟩

/-- C6 (amended): while running, DeleteFile(n) always deletes the
storage entry for n's storage ID; it stops the current task exactly when
the task's name equals n as a string (recording name or playing name);
a task running under a different display name is left running even when
that name maps to the same storage entry. -/
theorem deleteFile_exact_name (name : String) (w : World)
    (h : w.ctrl.isRunning = true) :
    (DeleteFile name w).1 = Except.ok () ∧
    (DeleteFile name w).2.entries = w.entries.erase (storageId name) ∧
    (((w.ctrl.recorder.isSome = true ∧ w.ctrl.recordingName = name) ∨
      (w.ctrl.player.isSome = true ∧ w.ctrl.playingName = name)) →
      (DeleteFile name w).2.ctrl.recorder = none ∧
      (DeleteFile name w).2.ctrl.player = none) ∧
    (¬((w.ctrl.recorder.isSome = true ∧ w.ctrl.recordingName = name) ∨
       (w.ctrl.player.isSome = true ∧ w.ctrl.playingName = name)) →
      (DeleteFile name w).2.ctrl.recorder = w.ctrl.recorder ∧
      (DeleteFile name w).2.ctrl.player = w.ctrl.player) := by
  have hbool :
      ((w.ctrl.recorder.isSome && w.ctrl.recordingName == name)
        || (w.ctrl.player.isSome && w.ctrl.playingName == name)) = true ↔
      ((w.ctrl.recorder.isSome = true ∧ w.ctrl.recordingName = name) ∨
       (w.ctrl.player.isSome = true ∧ w.ctrl.playingName = name)) := by
    simp
  rcases deleteFile_eq name w with ⟨hr, _⟩ | ⟨_, hc, he⟩ | ⟨_, hc, he⟩
  · rw [h] at hr; cases hr
  · rw [he]
    refine ⟨rfl, (congrArg (fun l => l.erase (storageId name))
        (stopTask_spec w).2.2.2.2.2.2.2.1), ?_, ?_⟩
    · intro _
      exact ⟨(stopTask_spec w).2.1, (stopTask_spec w).1⟩
    · intro hn
      exact absurd (hbool.mp hc) hn
  · rw [he]
    refine ⟨rfl, rfl, ?_, ?_⟩
    · intro hy
      rw [← hbool] at hy
      rw [hc] at hy
      cases hy
    · intro _
      exact ⟨rfl, rfl⟩

theorem deleteFile_exact_name_witness :
    (DeleteFile "a" runningWorld).1 = Except.ok () ∧
    (DeleteFile "a" runningWorld).2.entries
      = runningWorld.entries.erase (storageId "a") ∧
    (((runningWorld.ctrl.recorder.isSome = true ∧
        runningWorld.ctrl.recordingName = "a") ∨
      (runningWorld.ctrl.player.isSome = true ∧
        runningWorld.ctrl.playingName = "a")) →
      (DeleteFile "a" runningWorld).2.ctrl.recorder = none ∧
      (DeleteFile "a" runningWorld).2.ctrl.player = none) ∧
    (¬((runningWorld.ctrl.recorder.isSome = true ∧
        runningWorld.ctrl.recordingName = "a") ∨
       (runningWorld.ctrl.player.isSome = true ∧
        runningWorld.ctrl.playingName = "a")) →
      (DeleteFile "a" runningWorld).2.ctrl.recorder
        = runningWorld.ctrl.recorder ∧
      (DeleteFile "a" runningWorld).2.ctrl.player
        = runningWorld.ctrl.player) :=
  deleteFile_exact_name "a" runningWorld (by decide)

/-- The reachable state in which the controller is recording under the
display name x, while the storage entry for that recording is present on
disk. -/
def deleteCexWorld : World :=
  (RecordFile "x" true (runEnter (initWorld [storageId "x"]))).2

/-- C6 counterexample: the task records under the name x, and
DeleteFile is called with the name " x" (leading space). The two names
map to the same storage entry, which is deleted — but the recorder is
left running, because DeleteFile compares raw name strings, not storage
entries. -/
theorem deleteFile_cex :
    Reachable 0 [storageId "x"] deleteCexWorld ∧
    deleteCexWorld.ctrl.recorder.isSome = true ∧
    deleteCexWorld.ctrl.recordingName = "x" ∧
    storageId " x" = storageId "x" ∧
    (DeleteFile " x" deleteCexWorld).1 = Except.ok () ∧
    (DeleteFile " x" deleteCexWorld).2.ctrl.recorder.isSome = true ∧
    (DeleteFile " x" deleteCexWorld).2.entries = [] :=
  ⟨Reachable.step (Op.recordFile "x" true)
      (Reachable.step Op.runEnter Reachable.init),
    by decide, by decide, by decide, rfl, by decide, by decide⟩

/-! ## Proxy-device pairing (proxy.Manager, configured in app.go)

Modelled from the spec: proxy.Manager and its AddDevice live in the
gopushpixels dependency, not in this repository; app.go configures the
manager with the fixed 3-byte MAC OUI E1:2E:C7 and the proxy_group_offset
flag. The spec describes AddDevice as deriving a synthetic MAC from the
OUI and the low 3 bytes of the real device's MAC, adding groupOffset to
the group ordinal and keeping the controller ordinal. -/

/-- Modelled from the spec: a real (discovered) device as the proxy
manager sees it — its stable ID, 6-byte MAC, and ordinals. -/
structure RealDevice where
  id : String
  mac : List Nat
  group : Int
  controller : Int
deriving DecidableEq

/-- Modelled from the spec: a synthetic proxy device — its synthesized
MAC and ordinals and the ID of the real device it shadows. -/
structure ProxyDevice where
  mac : List Nat
  group : Int
  controller : Int
  proxiedId : String
deriving DecidableEq

/-- The 3 MAC OUI bytes that app.go configures on the proxy manager. -/
def proxyOUI : List Nat := [0xE1, 0x2E, 0xC7]

/-- Modelled from the spec: the proxy manager, reduced to its group
offset and its pairing of real devices with proxy devices. -/
structure Manager where
  groupOffset : Int
  pairs : List (RealDevice × ProxyDevice)
deriving DecidableEq

/-- Modelled from the spec: the proxy device synthesized for a real
device — MAC is the OUI followed by the low 3 bytes of the real MAC,
group is the real group plus the offset, controller is unchanged. -/
def mkProxy (off : Int) (d : RealDevice) : ProxyDevice :=
  { mac := proxyOUI ++ d.mac.drop 3,
    group := d.group + off,
    controller := d.controller,
    proxiedId := d.id }

/-- Modelled from the spec: Manager.AddDevice pairs the real device with
its synthesized proxy device. -/
def AddDevice (m : Manager) (d : RealDevice) : Manager :=
  { m with pairs := m.pairs ++ [(d, mkProxy m.groupOffset d)] }

/-- A fresh manager with the given group offset and no devices. -/
def mkManager (off : Int) : Manager := { groupOffset := off, pairs := [] }

/-- The manager after registering each discovered device in order. -/
def registerAll (off : Int) (ds : List RealDevice) : Manager :=
  ds.foldl AddDevice (mkManager off)

/-- Manager.ProxyDevices: the proxy devices the manager owns. -/
def proxyDevices (m : Manager) : List ProxyDevice := m.pairs.map Prod.snd

theorem foldl_addDevice_pairs (ds : List RealDevice) (m : Manager) :
    (ds.foldl AddDevice m).pairs
      = m.pairs ++ ds.map (fun d => (d, mkProxy m.groupOffset d)) ∧
    (ds.foldl AddDevice m).groupOffset = m.groupOffset := by
  induction ds generalizing m with
  | nil => simp
  | cons d ds ih =>
    have h := ih (AddDevice m d)
    constructor
    · rw [List.foldl_cons, h.1]
      simp [AddDevice]
    · rw [List.foldl_cons, h.2]
      rfl

theorem proxyDevices_registerAll (off : Int) (ds : List RealDevice) :
    proxyDevices (registerAll off ds) = ds.map (mkProxy off) := by
  unfold proxyDevices registerAll
  rw [(foldl_addDevice_pairs ds (mkManager off)).1]
  simp [mkManager]

theorem pairwise_suffix_inj {ds : List RealDevice}
    (h : ds.Pairwise (fun a b => a.mac.drop 3 ≠ b.mac.drop 3))
    {d₁ d₂ : RealDevice} (h1 : d₁ ∈ ds) (h2 : d₂ ∈ ds)
    (he : d₁.mac.drop 3 = d₂.mac.drop 3) : d₁ = d₂ := by
  by_contra hne
  have hsymm : Symmetric (fun (a b : RealDevice) =>
      a.mac.drop 3 ≠ b.mac.drop 3) := by
    intro a b hab hba
    exact hab hba.symm
  exact List.Pairwise.forall hsymm h h1 h2 hne he

/-- C3: for every real device registered in a manager whose real devices
have pairwise-distinct low-3 MAC bytes, there is exactly one proxy
device whose MAC starts with the configured 3 OUI bytes and ends with
the real device's low 3 MAC bytes, whose group is the real group plus
the configured offset, and whose controller ordinal is the real one. -/
theorem proxy_pairing (off : Int) (ds : List RealDevice) (d : RealDevice)
    (hdist : ds.Pairwise (fun a b => a.mac.drop 3 ≠ b.mac.drop 3))
    (hd : d ∈ ds) :
    ∃! p : ProxyDevice,
      p ∈ proxyDevices (registerAll off ds) ∧
      p.mac.take 3 = proxyOUI ∧
      p.mac.drop 3 = d.mac.drop 3 ∧
      p.group = d.group + off ∧
      p.controller = d.controller := by
  refine ⟨mkProxy off d, ⟨?_, rfl, rfl, rfl, rfl⟩, ?_⟩
  · rw [proxyDevices_registerAll]
    exact List.mem_map_of_mem (mkProxy off) hd
  · rintro p ⟨hpmem, _, hdrop, _, _⟩
    rw [proxyDevices_registerAll] at hpmem
    obtain ⟨d', hd', hpd⟩ := List.mem_map.mp hpmem
    have hsfx : d'.mac.drop 3 = d.mac.drop 3 := by
      have : (mkProxy off d').mac.drop 3 = d'.mac.drop 3 := rfl
      rw [hpd] at this
      rw [← this, hdrop]
    rw [← hpd, pairwise_suffix_inj hdist hd' hd hsfx]

theorem proxy_pairing_witness :
    ∃! p : ProxyDevice,
      p ∈ proxyDevices (registerAll 5
        [{ id := "a", mac := [0, 1, 2, 3, 4, 5], group := 2, controller := 7 },
         { id := "b", mac := [9, 9, 9, 6, 7, 8], group := 3, controller := 1 }]) ∧
      p.mac.take 3 = proxyOUI ∧
      p.mac.drop 3 = [3, 4, 5] ∧
      p.group = 2 + 5 ∧
      p.controller = 7 :=
  proxy_pairing 5
    [{ id := "a", mac := [0, 1, 2, 3, 4, 5], group := 2, controller := 7 },
     { id := "b", mac := [9, 9, 9, 6, 7, 8], group := 3, controller := 1 }]
    { id := "a", mac := [0, 1, 2, 3, 4, 5], group := 2, controller := 7 }
    (by simp) (by simp)

/-- A real device whose MAC ends in 33:44:55 (here 3, 4, 5). -/
def collideD1 : RealDevice :=
  { id := "a", mac := [0, 1, 2, 3, 4, 5], group := 2, controller := 7 }

/-- A different real device (different full MAC, hence a distinct
registry entry) whose MAC shares the low 3 bytes of collideD1 and whose
ordinals coincide with collideD1's. -/
def collideD2 : RealDevice :=
  { id := "b", mac := [9, 9, 9, 3, 4, 5], group := 2, controller := 7 }

/-- C3 counterexample: the claim's exactly-one conclusion fails without
a distinct-suffix proviso. Register the two distinct devices collideD1
and collideD2, which share their low 3 MAC bytes and their ordinals:
both synthesized proxy devices satisfy every predicate of the claim for
collideD1 (OUI-prefixed MAC, collideD1's MAC suffix, group + offset,
same controller), yet they are different proxy devices, so there is no
unique such proxy. -/
theorem proxy_pairing_cex :
    collideD1 ≠ collideD2 ∧
    ¬ ∃! p : ProxyDevice,
        p ∈ proxyDevices (registerAll 5 [collideD1, collideD2]) ∧
        p.mac.take 3 = proxyOUI ∧
        p.mac.drop 3 = collideD1.mac.drop 3 ∧
        p.group = collideD1.group + 5 ∧
        p.controller = collideD1.controller := by
  constructor
  · decide
  · rintro ⟨p, _, huniq⟩
    have h1 : mkProxy 5 collideD1 = p :=
      huniq (mkProxy 5 collideD1) (by refine ⟨?_, ?_, ?_, ?_, ?_⟩ <;> decide)
    have h2 : mkProxy 5 collideD2 = p :=
      huniq (mkProxy 5 collideD2) (by refine ⟨?_, ?_, ?_, ?_, ?_⟩ <;> decide)
    exact absurd (h1.trans h2.symm) (by decide)

end PixelProxy
